import Mathlib

set_option maxRecDepth 10000

/-!
Shallow embedding of the temporal cross-validation splitting engine found in
`mlt/cross_validation_splitters/timeseries_cv.py` and
`mlt/cross_validation_splitters/prediction_window_manager.py`.

Modelling conventions:
* A dataset row carries its two timestamps (`prediction_time`, `evaluation_time`),
  modelled as integers; a dataset is a `List Row`, a row's position its index.
* `np.ndarray` position arrays become `List Nat`; `np.arange N` is `List.range N`;
  a Python slice `arr[a:b]` of `np.arange N` is `sliceIdx N a (some b)` and
  `arr[a:]` is `sliceIdx N a none`.
* `np.intersect1d(train, all_indices[mask])` with `train` a sorted duplicate-free
  array is `train.filter mask`.
* A Python generator that can raise mid-iteration is modelled as a list of
  `Except String` steps folded by `runGen`, which returns the pairs yielded
  before the first error together with the error, if any.
* Raised `ValueError`s become `Except.error`.
-/

/-- One dataset row: its prediction timestamp and its evaluation timestamp. -/
structure Row where
  pred_time : Int
  eval_time : Int
deriving DecidableEq, Repr

/-- `pred_times.iloc[j]` : the prediction time at position `j`. -/
def predAt (rows : List Row) (j : Nat) : Int :=
  (rows.getD j ⟨0, 0⟩).pred_time

/-- `eval_times.iloc[j]` : the evaluation time at position `j`. -/
def evalAt (rows : List Row) (j : Nat) : Int :=
  (rows.getD j ⟨0, 0⟩).eval_time

/-- `pandas.Series.is_monotonic_increasing` : non-decreasing. -/
def isMonotone : List Int → Bool
  | [] => true
  | [_] => true
  | a :: b :: rest => decide (a ≤ b) && isMonotone (b :: rest)

/-- `np.arange(N)[slice(a, b)]` (with `b = none` meaning "to the end"):
the positions `a, a+1, …, min b N - 1`. -/
def sliceIdx (N a : Nat) (b : Option Nat) : List Nat :=
  List.range' a (min (b.getD N) N - a)

/-- `np.ndarray.min()` of a nonempty list of positions. -/
def npMin (xs : List Nat) : Nat := xs.foldl min (xs.headD 0)

/-- `np.ndarray.max()` of a nonempty list of positions. -/
def npMax (xs : List Nat) : Nat := xs.foldl max 0

/-- `BaseTimeSeriesCV.purge` (staticmethod, `timeseries_cv.py` lines 146-183).
`all_indices` is always `np.arange(len rows)` so it is implicit here:
masking it keeps exactly the positions `j < rows.length` satisfying the mask.
-/
def purge (rows : List Row) (train_indices : List Nat)
    (test_fold_start test_fold_end : Nat) : List Nat :=
  let N := rows.length
  let time_test_fold_start := predAt rows test_fold_start
  let train_indices_1 := train_indices.filter
    (fun j => decide (j < N) && decide (evalAt rows j < time_test_fold_start))
  let train_indices_2 := train_indices.filter
    (fun j => decide (test_fold_end ≤ j) && decide (j < N))
  let train_indices_2 :=
    if test_fold_end < N then
      train_indices_2.filter
        (fun j => decide (predAt rows j ≥ evalAt rows test_fold_end))
    else train_indices_2
  train_indices_1 ++ train_indices_2

/-- `eval_times.iloc[test_indices[test_indices <= test_fold_end].max()]`
(`timeseries_cv.py` line 139). -/
def lastTestEvalTime (rows : List Row) (test_indices : List Nat)
    (test_fold_end : Nat) : Int :=
  evalAt rows (npMax (test_indices.filter (fun j => decide (j ≤ test_fold_end))))

/-- `len(pred_times[pred_times <= last_test_eval_time + self.embargo_td])`
(`timeseries_cv.py` line 140). -/
def minTrainIndex (embargo_td : Int) (rows : List Row) (test_indices : List Nat)
    (test_fold_end : Nat) : Nat :=
  ((List.range rows.length).filter
    (fun j => decide (predAt rows j ≤ lastTestEvalTime rows test_indices test_fold_end
      + embargo_td))).length

/-- `BaseTimeSeriesCV.embargo` (`timeseries_cv.py` lines 106-144), with
`self.embargo_td` passed explicitly and `all_indices = np.arange(len rows)`.
`allowed_indices = concat(all_indices[:test_fold_end], all_indices[min_train_index:])`
and the result is `np.intersect1d(train_indices, allowed_indices)`. -/
def embargo (embargo_td : Int) (rows : List Row)
    (train_indices test_indices : List Nat) (test_fold_end : Nat) : List Nat :=
  let N := rows.length
  let min_train_index := minTrainIndex embargo_td rows test_indices test_fold_end
  if min_train_index < N then
    train_indices.filter (fun j =>
      decide (j < min test_fold_end N) ||
        (decide (min_train_index ≤ j) && decide (j < N)))
  else train_indices

/-- A Python argument value as seen by the `isinstance(_, numbers.Integral)`
checks in the constructors: either an integral value or anything else. -/
inductive PyVal where
  | int : Int → PyVal
  | nonInt : PyVal
deriving DecidableEq, Repr

/-- The validated configuration state of a `PurgedWalkForwardCV` instance.
All numeric fields are positive after validation, so they are `Nat`s. -/
structure PurgedWalkForwardCV where
  n_splits : Nat
  n_test_splits : Nat
  min_train_splits : Nat
  max_train_splits : Nat
  embargo_td : Int
  split_by_time : Bool
deriving DecidableEq, Repr

/-- `PurgedWalkForwardCV.__init__` (`timeseries_cv.py` lines 224-260) together
with the `BaseTimeSeriesCV.__init__` checks it delegates to (lines 40-60).
The `super().__init__` call does not forward `embargo_td`, so the stored
`embargo_td` is the `pd.Timedelta(minutes=0)` default, i.e. `0`. -/
def mkPurgedWalkForwardCV (n_splits n_test_splits min_train_splits : PyVal)
    (max_train_splits : Option PyVal) (split_by_time : Bool) :
    Except String PurgedWalkForwardCV :=
  match n_splits with
  | .nonInt => .error "n_splits must be an integer"
  | .int ns =>
    if ns ≤ 1 then .error "n_splits must be greater than 1" else
    match n_test_splits with
    | .nonInt => .error "n_test_splits must be an integer"
    | .int nts =>
      if nts ≤ 0 ∨ nts ≥ ns - 1 then
        .error "n_test_splits must be greater than 0 and less than n_splits - 1" else
      match min_train_splits with
      | .nonInt => .error "min_train_splits must be an integer"
      | .int mts =>
        if mts ≤ 0 ∨ mts ≥ ns - nts then
          .error "min_train_splits must be greater than 0 and less than n_splits - n_test_splits" else
        match max_train_splits.getD (.int (ns - nts)) with
        | .nonInt => .error "max_train_splits must be an integer"
        | .int xts =>
          if xts ≤ 0 ∨ xts > ns - nts then
            .error "max_train_splits must be greater than 0 and less than n_splits - n_test_splits" else
          if mts > xts then
            .error "min_train_splits must be less than or equal to max_train_splits" else
          .ok ⟨ns.toNat, nts.toNat, mts.toNat, xts.toNat, 0, split_by_time⟩

/-- `PurgedWalkForwardCV.get_n_splits` (`timeseries_cv.py` lines 262-263). -/
def PurgedWalkForwardCV.get_n_splits (cv : PurgedWalkForwardCV) : Nat :=
  cv.n_splits - cv.n_test_splits - cv.min_train_splits + 1

/-- `_compute_fold_bounds` in the `split_by_time = False` branch:
`[fold[0] for fold in np.array_split(np.arange(N), n_splits)]`.
`np.array_split` makes the first `N % k` parts one element longer, so part `j`
starts at `j * (N / k) + min j (N % k)`. -/
def foldBoundsByIndex (k N : Nat) : List Nat :=
  (List.range k).map (fun j => j * (N / k) + min j (N % k))

/-- `_compute_fold_bounds` in the `split_by_time = True` branch:
`fold_bounds_times = [pred_times.iloc[0] + fold_time_span * n for n in range(n_splits)]`
followed by `pred_times.searchsorted(fold_bounds_times)`; on a sorted series a
left-sided searchsorted of `t` is the number of entries `< t`.  The exact
timestamp arithmetic is carried out in `ℚ`. -/
def foldBoundsByTime (k : Nat) (rows : List Row) : List Nat :=
  let pred_times := rows.map Row.pred_time
  let lo := pred_times.foldl min (pred_times.headD 0)
  let hi := pred_times.foldl max (pred_times.headD 0)
  let fold_time_span : ℚ := ((hi : ℚ) - (lo : ℚ)) / (k : ℚ)
  (List.range k).map (fun n =>
    (pred_times.filter
      (fun t => decide ((t : ℚ) < (pred_times.headD 0 : ℚ) + fold_time_span * (n : ℚ)))).length)

/-- `PurgedWalkForwardCV._compute_fold_bounds` (`timeseries_cv.py` lines 312-328). -/
def PurgedWalkForwardCV.compute_fold_bounds (cv : PurgedWalkForwardCV)
    (rows : List Row) : List Nat :=
  if cv.split_by_time then foldBoundsByTime cv.n_splits rows
  else foldBoundsByIndex cv.n_splits rows.length

/-- One iteration of the loop in `PurgedWalkForwardCV._split`
(`timeseries_cv.py` lines 296-310).  `i - cv.max_train_splits` is natural
subtraction, which is exactly `max(0, i - max_train_splits)`.
`test_indices.min()` on an empty array raises, which the `Except` models. -/
def PurgedWalkForwardCV.splitStep (cv : PurgedWalkForwardCV) (rows : List Row)
    (fold_bounds : List Nat) (i : Nat) : Except String (List Nat × List Nat) :=
  let N := rows.length
  let train_start := fold_bounds.getD (i - cv.max_train_splits) 0
  let train_end := fold_bounds.getD i 0
  let train_indices := sliceIdx N train_start (some train_end)
  let test_end : Option Nat :=
    if i + cv.n_test_splits < cv.n_splits then
      some (fold_bounds.getD (i + cv.n_test_splits) 0)
    else none
  let test_indices := sliceIdx N (fold_bounds.getD i 0) test_end
  if test_indices.isEmpty then
    .error "zero-size array to reduction operation minimum which has no identity"
  else
    .ok (purge rows train_indices (npMin test_indices) (npMax test_indices),
      test_indices)

/-- Run a generator body: collect the values yielded before the first raised
error, together with that error, if any. -/
def runGen {α : Type} : List (Except String α) → List α × Option String
  | [] => ([], none)
  | .error e :: _ => ([], some e)
  | .ok a :: rest =>
    let r := runGen rest
    (a :: r.1, r.2)

/-- `BaseTimeSeriesCV.split` specialised by `PurgedWalkForwardCV._split`
(`timeseries_cv.py` lines 77-100 and 265-310): the monotonicity check of
`_check_split_arguments`, then the generator loop
`for i in range(min_train_splits, n_splits - n_test_splits + 1)`. -/
def PurgedWalkForwardCV.split (cv : PurgedWalkForwardCV) (rows : List Row) :
    List (List Nat × List Nat) × Option String :=
  if isMonotone (rows.map Row.pred_time) then
    let fold_bounds := cv.compute_fold_bounds rows
    runGen ((List.range' cv.min_train_splits
        (cv.n_splits - cv.n_test_splits + 1 - cv.min_train_splits)).map
      (cv.splitStep rows fold_bounds))
  else ([], some "pred_time_column_name must be monotonic increasing")

/-- The configuration state of a `PredictionWindowManager` instance after
`scale_sizes` has run (`prediction_window_manager.py` lines 15-75). -/
structure PredictionWindowManager where
  gap_size : Int
  initial_train_size : Int
  num_bars_between_training : Int
  rolling_window_size : Int
deriving DecidableEq, Repr

/-- `int(np.ceil(x / d))` for integral `x` and positive integral `d`:
exact ceiling division, written through `Int.fdiv` (floor division). -/
def ceilDiv (x d : Int) : Int := -((-x).fdiv d)

/-- The `frequency_map` dictionary in `scale_sizes`. -/
def frequencyDivisor (f : String) : Option Int :=
  if f = "daily" then some 1
  else if f = "weekly" then some 5
  else if f = "monthly" then some 22
  else none

/-- `PredictionWindowManager.__init__`, whose call to `scale_sizes` rescales
`gap_size`, `initial_train_size` and `num_bars_between_training` (and only
those) by the per-frequency divisor, raising on an unsupported frequency
(`prediction_window_manager.py` lines 15-75). -/
def mkPredictionWindowManager (gap_size initial_train_size : Int)
    (training_frequency : String)
    (num_bars_between_training rolling_window_size : Int) :
    Except String PredictionWindowManager :=
  match frequencyDivisor training_frequency with
  | none => .error "Unsupported frequency"
  | some d => .ok ⟨ceilDiv gap_size d, ceilDiv initial_train_size d,
      ceilDiv num_bars_between_training d, rolling_window_size⟩

/-- `pandas.Series.unique` : distinct values in order of first appearance. -/
def uniq (xs : List Int) : List Int :=
  xs.foldl (fun acc x => if x ∈ acc then acc else acc ++ [x]) []

/-- `xs[a:b]` for a list of timestamps and non-negative slice bounds. -/
def pySlice (xs : List Int) (a b : Nat) : List Int := (xs.drop a).take (b - a)

/-- The number of elements of Python's `range(start, stop, step)` (for
`step ≠ 0`). -/
def pyRangeLen (start stop step : Int) : Nat :=
  if 0 < step then (((stop - start) + step - 1).fdiv step).toNat
  else (((start - stop) - step - 1).fdiv (-step)).toNat

/-- Python's `range(start, stop, step)` as a list (for `step ≠ 0`). -/
def pyRange (start stop step : Int) : List Int :=
  (List.range (pyRangeLen start stop step)).map (fun m => start + step * (m : Int))

/-- `data.loc[data[time_column].isin(ts)].index` for a default integer index:
the row positions whose time value lies in `ts`. -/
def positionsWithTimeIn (times : List Int) (ts : List Int) : List Nat :=
  (List.range times.length).filter (fun p => decide (times.getD p 0 ∈ ts))

/-- `PredictionWindowManager.split` (`prediction_window_manager.py` lines
77-107).  `times` is the dataset's time column, one entry per row.  A negative
`train_end` or `prediction_start` cannot arise from non-negative configured
sizes, so slice bounds are clamped at zero via `Int.toNat`. -/
def PredictionWindowManager.split (c : PredictionWindowManager)
    (times : List Int) : Except String (List (List Nat × List Nat)) :=
  if isMonotone times then
    let prediction_times := uniq times
    let num_prediction_times : Int := prediction_times.length
    if c.initial_train_size > num_prediction_times then
      .error "Initial training size must be less than or equal to the number of prediction times"
    else if c.num_bars_between_training = 0 then
      .error "range arg 3 must not be zero"
    else
      .ok ((pyRange (c.initial_train_size + c.gap_size) num_prediction_times
          c.num_bars_between_training).map (fun prediction_start =>
        let train_end := prediction_start - c.gap_size
        let train_times :=
          if c.rolling_window_size ≠ 0 then
            pySlice prediction_times (max (train_end - c.rolling_window_size) 0).toNat
              train_end.toNat
          else
            pySlice prediction_times 0 train_end.toNat
        let test_times := pySlice prediction_times prediction_start.toNat
          (prediction_start + c.num_bars_between_training).toNat
        (positionsWithTimeIn times train_times, positionsWithTimeIn times test_times)))
  else .error "Time column must be monotonic increasing"

/-! ## Helper lemmas -/

theorem mem_sliceIdx {N a j : Nat} {b : Option Nat} :
    j ∈ sliceIdx N a b ↔ a ≤ j ∧ j < min (b.getD N) N := by
  simp only [sliceIdx, List.mem_range'_1]
  omega

theorem mem_purge {rows : List Row} {tr : List Nat} {tfs tfe j : Nat} :
    j ∈ purge rows tr tfs tfe ↔
      (j ∈ tr ∧ j < rows.length ∧ evalAt rows j < predAt rows tfs) ∨
      (j ∈ tr ∧ tfe ≤ j ∧ j < rows.length ∧
        (tfe < rows.length → evalAt rows tfe ≤ predAt rows j)) := by
  by_cases h2 : tfe < rows.length <;>
    simp [purge, h2, List.mem_filter, List.mem_append, Bool.and_eq_true,
      decide_eq_true_eq, ge_iff_le] <;> tauto

theorem purge_subset {rows : List Row} {tr : List Nat} {tfs tfe j : Nat}
    (h : j ∈ purge rows tr tfs tfe) : j ∈ tr := by
  rcases mem_purge.mp h with h' | h' <;> exact h'.1

theorem runGen_mem {α : Type} {l : List (Except String α)} {x : α}
    (h : x ∈ (runGen l).1) : Except.ok x ∈ l := by
  induction l with
  | nil => simp [runGen] at h
  | cons hd tl ih =>
    cases hd with
    | error e => simp [runGen] at h
    | ok a =>
      simp only [runGen] at h
      rcases List.mem_cons.mp h with h1 | h2
      · subst h1; exact List.mem_cons_self _ _
      · exact List.mem_cons_of_mem _ (ih h2)

theorem runGen_all_ok {α : Type} {l : List (Except String α)}
    (h : ∀ x ∈ l, ∃ a, x = Except.ok a) :
    (runGen l).1.length = l.length ∧ (runGen l).2 = none := by
  induction l with
  | nil => simp [runGen]
  | cons hd tl ih =>
    obtain ⟨a, ha⟩ := h hd (List.mem_cons_self _ _)
    subst ha
    have h' := ih (fun x hx => h x (List.mem_cons_of_mem _ hx))
    simp [runGen, h'.1, h'.2]

theorem foldBoundsByIndex_getD {k N j : Nat} (h : j < k) :
    (foldBoundsByIndex k N).getD j 0 = j * (N / k) + min j (N % k) := by
  simp [foldBoundsByIndex, List.getD_eq_getElem?_getD, List.getElem?_map,
    List.getElem?_range, h]

theorem foldBoundsByIndex_lt {k N j : Nat} (hj : j < k) (hkN : k ≤ N) :
    j * (N / k) + min j (N % k) < N := by
  have hk : 0 < k := by omega
  have hq : 1 ≤ N / k := (Nat.one_le_div_iff hk).mpr hkN
  have hN : k * (N / k) + N % k = N := Nat.div_add_mod N k
  have hr : N % k < k := Nat.mod_lt _ hk
  have h1 : j * (N / k) ≤ (k - 1) * (N / k) := Nat.mul_le_mul_right _ (by omega)
  have h2 : (k - 1) * (N / k) + 1 * (N / k) = k * (N / k) := by
    rw [← Nat.add_mul]; congr 1; omega
  have h3 : min j (N % k) ≤ N % k := Nat.min_le_right _ _
  omega

theorem foldBoundsByIndex_strictMono {k N i j : Nat} (hij : i < j) (hk : 0 < k)
    (hkN : k ≤ N) :
    i * (N / k) + min i (N % k) < j * (N / k) + min j (N % k) := by
  have hq : 1 ≤ N / k := (Nat.one_le_div_iff hk).mpr hkN
  have h1 : (i + 1) * (N / k) ≤ j * (N / k) := Nat.mul_le_mul_right _ (by omega)
  have h2 : (i + 1) * (N / k) = i * (N / k) + N / k := by ring
  have h3 : min i (N % k) ≤ min j (N % k) := by omega
  omega

theorem mkPurgedWalkForwardCV_ok_spec {a b c : PyVal} {d : Option PyVal}
    {sbt : Bool} {cfg : PurgedWalkForwardCV}
    (h : mkPurgedWalkForwardCV a b c d sbt = .ok cfg) :
    2 ≤ cfg.n_splits ∧ 1 ≤ cfg.n_test_splits ∧
    cfg.n_test_splits + 1 < cfg.n_splits ∧
    1 ≤ cfg.min_train_splits ∧
    cfg.min_train_splits < cfg.n_splits - cfg.n_test_splits ∧
    1 ≤ cfg.max_train_splits ∧
    cfg.max_train_splits ≤ cfg.n_splits - cfg.n_test_splits ∧
    cfg.min_train_splits ≤ cfg.max_train_splits ∧
    cfg.embargo_td = 0 ∧ cfg.split_by_time = sbt := by
  cases a with
  | nonInt => simp [mkPurgedWalkForwardCV] at h
  | int ns =>
    cases b with
    | nonInt =>
      simp only [mkPurgedWalkForwardCV] at h
      split at h <;> simp at h
    | int nts =>
      cases c with
      | nonInt =>
        simp only [mkPurgedWalkForwardCV] at h
        split at h <;> [skip; split at h] <;> simp at h
      | int mts =>
        rcases d with _ | v
        · simp only [mkPurgedWalkForwardCV, Option.getD_none] at h
          split_ifs at h with h1 h2 h3 h4 h5
          cases h
          refine ⟨?_, ?_, ?_, ?_, ?_, ?_, ?_, ?_, rfl, rfl⟩ <;> · dsimp only; omega
        · cases v with
          | nonInt =>
            simp only [mkPurgedWalkForwardCV, Option.getD_some] at h
            split_ifs at h <;> simp at h
          | int xts =>
            simp only [mkPurgedWalkForwardCV, Option.getD_some] at h
            split_ifs at h with h1 h2 h3 h4 h5
            cases h
            refine ⟨?_, ?_, ?_, ?_, ?_, ?_, ?_, ?_, rfl, rfl⟩ <;> · dsimp only; omega

theorem pwf_split_eq (cv : PurgedWalkForwardCV) (rows : List Row)
    (h : isMonotone (rows.map Row.pred_time) = true) :
    cv.split rows = runGen ((List.range' cv.min_train_splits
        (cv.n_splits - cv.n_test_splits + 1 - cv.min_train_splits)).map
      (cv.splitStep rows (cv.compute_fold_bounds rows))) := by
  simp [PurgedWalkForwardCV.split, h]

theorem pwf_split_not_mono (cv : PurgedWalkForwardCV) (rows : List Row)
    (h : isMonotone (rows.map Row.pred_time) = false) :
    cv.split rows = ([], some "pred_time_column_name must be monotonic increasing") := by
  simp [PurgedWalkForwardCV.split, h]

theorem splitStep_ok_inv {cv : PurgedWalkForwardCV} {rows : List Row}
    {fb : List Nat} {i : Nat} {p : List Nat × List Nat}
    (h : cv.splitStep rows fb i = Except.ok p) :
    p.2 = sliceIdx rows.length (fb.getD i 0)
        (if i + cv.n_test_splits < cv.n_splits then
          some (fb.getD (i + cv.n_test_splits) 0) else none) ∧
    p.1 = purge rows
        (sliceIdx rows.length (fb.getD (i - cv.max_train_splits) 0)
          (some (fb.getD i 0)))
        (npMin p.2) (npMax p.2) ∧
    p.2 ≠ [] := by
  simp only [PurgedWalkForwardCV.splitStep] at h
  split at h
  · rename_i hcond
    split at h
    · exact absurd h (by simp)
    · rename_i hne
      rw [Except.ok.injEq] at h
      subst h
      refine ⟨by simp [if_pos hcond], by simp [if_pos hcond], ?_⟩
      simpa [List.isEmpty_iff] using hne
  · rename_i hcond
    split at h
    · exact absurd h (by simp)
    · rename_i hne
      rw [Except.ok.injEq] at h
      subst h
      refine ⟨by simp [if_neg hcond], by simp [if_neg hcond], ?_⟩
      simpa [List.isEmpty_iff] using hne

theorem pwf_pair_disjoint (cv : PurgedWalkForwardCV) (rows : List Row)
    (p : List Nat × List Nat) (hp : p ∈ (cv.split rows).1) :
    ∀ j, j ∈ p.1 → j ∉ p.2 := by
  intro j hj1 hj2
  cases hm : isMonotone (rows.map Row.pred_time) with
  | false => rw [pwf_split_not_mono cv rows hm] at hp; simp at hp
  | true =>
    rw [pwf_split_eq cv rows hm] at hp
    obtain ⟨i, _hi, hstep⟩ := List.mem_map.mp (runGen_mem hp)
    obtain ⟨hte, htr, _⟩ := splitStep_ok_inv hstep
    rw [htr] at hj1
    have hj1' := mem_sliceIdx.mp (purge_subset hj1)
    rw [hte] at hj2
    have hj2' := mem_sliceIdx.mp hj2
    simp only [Option.getD_some] at hj1'
    omega

theorem uniq_nodup (xs : List Int) : (uniq xs).Nodup := by
  have key : ∀ (ys : List Int) (acc : List Int), acc.Nodup →
      (ys.foldl (fun acc x => if x ∈ acc then acc else acc ++ [x]) acc).Nodup := by
    intro ys
    induction ys with
    | nil => intro acc h; exact h
    | cons y ys ih =>
      intro acc h
      simp only [List.foldl_cons]
      by_cases hy : y ∈ acc
      · simp only [if_pos hy]; exact ih acc h
      · simp only [if_neg hy]
        refine ih _ ?_
        simp [List.nodup_append, h, List.disjoint_singleton, hy]
  exact key xs [] (by simp)

theorem pySlice_subset_take {xs : List Int} {a b : Nat} :
    pySlice xs a b ⊆ xs.take b := by
  have h : pySlice xs a b = (xs.take b).drop a := by
    simp [pySlice, List.drop_take]
  rw [h]
  exact List.drop_subset _ _

theorem pySlice_subset_drop {xs : List Int} {a b : Nat} :
    pySlice xs a b ⊆ xs.drop a :=
  List.take_subset _ _

theorem mem_positionsWithTimeIn {times ts : List Int} {p : Nat} :
    p ∈ positionsWithTimeIn times ts ↔ p < times.length ∧ times.getD p 0 ∈ ts := by
  simp [positionsWithTimeIn, List.mem_filter, List.mem_range]

theorem frequencyDivisor_pos {f : String} {d : Int}
    (h : frequencyDivisor f = some d) : 0 < d := by
  unfold frequencyDivisor at h
  split_ifs at h <;> (try simp at h) <;> omega

theorem ceilDiv_nonneg {x d : Int} (hx : 0 ≤ x) (hd : 0 < d) : 0 ≤ ceilDiv x d := by
  unfold ceilDiv
  have h1 : (-x).fmod d + d * ((-x).fdiv d) = -x := Int.fmod_add_fdiv _ _
  have h2 : 0 ≤ (-x).fmod d := Int.fmod_nonneg' _ hd
  have h3 : d * ((-x).fdiv d) ≤ d * 0 := by rw [mul_zero]; omega
  have h4 : (-x).fdiv d ≤ 0 := le_of_mul_le_mul_left h3 hd
  omega

theorem mkPWM_ok_inv {g i nb rw : Int} {f : String} {c : PredictionWindowManager}
    (h : mkPredictionWindowManager g i f nb rw = .ok c) :
    ∃ d, frequencyDivisor f = some d ∧ 0 < d ∧
      c.gap_size = ceilDiv g d ∧ c.initial_train_size = ceilDiv i d ∧
      c.num_bars_between_training = ceilDiv nb d ∧ c.rolling_window_size = rw := by
  unfold mkPredictionWindowManager at h
  cases hf : frequencyDivisor f with
  | none => rw [hf] at h; simp at h
  | some d =>
    rw [hf] at h
    simp only [Except.ok.injEq] at h
    subst h
    exact ⟨d, rfl, frequencyDivisor_pos hf, rfl, rfl, rfl, rfl⟩

theorem pwm_pair_disjoint {c : PredictionWindowManager} {times : List Int}
    {pairs : List (List Nat × List Nat)} {p : List Nat × List Nat}
    (hg : 0 ≤ c.gap_size)
    (h : c.split times = .ok pairs) (hp : p ∈ pairs) :
    ∀ j, j ∈ p.1 → j ∉ p.2 := by
  intro j hj1 hj2
  by_cases hm : isMonotone times = true
  · by_cases hinit : c.initial_train_size > ((uniq times).length : Int)
    · simp [PredictionWindowManager.split, hm, hinit] at h
    · by_cases hnb : c.num_bars_between_training = 0
      · simp [PredictionWindowManager.split, hm, hinit, hnb] at h
      · simp only [PredictionWindowManager.split, hm, if_true, if_neg hinit,
          if_neg hnb, Except.ok.injEq] at h
        subst h
        obtain ⟨start, _hs, hpair⟩ := List.mem_map.mp hp
        subst hpair
        simp only [mem_positionsWithTimeIn] at hj1 hj2
        have hnd : (uniq times).Nodup := uniq_nodup times
        have hle : (start - c.gap_size).toNat ≤ start.toNat :=
          Int.toNat_le_toNat (by omega)
        have hdisj := List.disjoint_take_drop hnd hle
        have htr : times.getD j 0 ∈ (uniq times).take (start - c.gap_size).toNat := by
          rcases hj1 with ⟨_, hj1⟩
          split at hj1
          · exact pySlice_subset_take hj1
          · exact pySlice_subset_take hj1
        have hts : times.getD j 0 ∈ (uniq times).drop start.toNat :=
          pySlice_subset_drop hj2.2
        exact hdisj htr hts
  · simp [PredictionWindowManager.split, hm] at h

/-! ## Claim theorems -/

/-- A small concrete dataset: six rows with `pred_time = eval_time = position`. -/
def exampleRows6 : List Row := (List.range 6).map (fun j => ⟨(j : Int), (j : Int)⟩)

/-- **C1**: For every split yielded by `PurgedWalkForwardCV.split` or
`PredictionWindowManager.split` on a dataset whose time column is
non-decreasing (and with the configured non-negative sizes), the yielded
train positions and test positions are disjoint.  (For `PurgedWalkForwardCV`
this holds for every configuration and dataset; for
`PredictionWindowManager` it is proved for every instance built by the
constructor from non-negative sizes.) -/
theorem C1_train_test_disjoint :
    (∀ (cv : PurgedWalkForwardCV) (rows : List Row) (p : List Nat × List Nat),
        p ∈ (cv.split rows).1 → ∀ j, j ∈ p.1 → j ∉ p.2) ∧
    (∀ (gap init nb rw : Int) (freq : String) (c : PredictionWindowManager)
        (times : List Int) (pairs : List (List Nat × List Nat))
        (p : List Nat × List Nat),
        0 ≤ gap → 0 ≤ init → 0 ≤ nb → 0 ≤ rw →
        mkPredictionWindowManager gap init freq nb rw = .ok c →
        c.split times = .ok pairs → p ∈ pairs → ∀ j, j ∈ p.1 → j ∉ p.2) := by
  constructor
  · exact fun cv rows p hp => pwf_pair_disjoint cv rows p hp
  · intro gap init nb rw freq c times pairs p hgap _ _ _ hmk hsplit hp
    obtain ⟨d, _, hd, hgs, _, _, _⟩ := mkPWM_ok_inv hmk
    have hg : 0 ≤ c.gap_size := hgs ▸ ceilDiv_nonneg hgap hd
    exact pwm_pair_disjoint hg hsplit hp

/-- Witness for C1 at concrete inputs: a `PurgedWalkForwardCV (n_splits := 3)`
on six rows, and a daily `PredictionWindowManager` on four time bars. -/
theorem C1_train_test_disjoint_witness :
    (0 : Nat) ∉ ((((⟨3, 1, 1, 2, 0, false⟩ : PurgedWalkForwardCV).split
        exampleRows6).1.getD 0 ([], [])).2) ∧
    (0 : Nat) ∉ (([0, 1], [2]) : List Nat × List Nat).2 := by
  constructor
  · exact C1_train_test_disjoint.1 ⟨3, 1, 1, 2, 0, false⟩ exampleRows6 _
      (by decide) 0 (by decide)
  · exact C1_train_test_disjoint.2 0 2 1 0 "daily" ⟨0, 2, 1, 0⟩ [0, 1, 2, 3]
      [([0, 1], [2]), ([0, 1, 2], [3])] ([0, 1], [2])
      (by decide) (by decide) (by decide) (by decide) (by rfl) (by rfl)
      (by decide) 0 (by decide)

/-- A concrete dataset for the purge leakage check: twenty rows with
`pred_time = eval_time = position`, except row 8 whose label resolves late
(`pred_time = 8`, `eval_time = 15`). -/
def exampleRowsP : List Row :=
  (List.range 20).map (fun j => if j = 8 then ⟨8, 15⟩ else ⟨(j : Int), (j : Int)⟩)

/-- **C2**: For every call
`purge(all_positions, train_positions, test_fold_start, test_fold_end, pred_times, eval_times)`
with valid fold-bound positions, the result is exactly the union of (a) the
train positions whose `eval_time` is strictly before
`pred_times[test_fold_start]` and (b) the train positions located from
`test_fold_end` onward, further restricted (when `test_fold_end` is within
range) to those whose `pred_time ≥ eval_times[test_fold_end]`; in particular
a training row at position 8 with `pred_time = 8` and `eval_time = 15` is
absent from the result when the test fold starts at position 10. -/
theorem C2_purge_membership :
    (∀ (rows : List Row) (train : List Nat) (tfs tfe : Nat),
      tfs < rows.length → (∀ t ∈ train, t < rows.length) →
      ∀ j, j ∈ purge rows train tfs tfe ↔
        ((j ∈ train ∧ evalAt rows j < predAt rows tfs) ∨
         (j ∈ train ∧ tfe ≤ j ∧
           (tfe < rows.length → evalAt rows tfe ≤ predAt rows j)))) ∧
    (8 : Nat) ∉ purge exampleRowsP (List.range 10) 10 19 := by
  constructor
  · intro rows train tfs tfe _htfs htrain j
    rw [mem_purge]
    constructor
    · rintro (⟨h1, _, h3⟩ | ⟨h1, h2, _, h4⟩)
      · exact Or.inl ⟨h1, h3⟩
      · exact Or.inr ⟨h1, h2, h4⟩
    · rintro (⟨h1, h3⟩ | ⟨h1, h2, h4⟩)
      · exact Or.inl ⟨h1, htrain j h1, h3⟩
      · exact Or.inr ⟨h1, h2, htrain j h1, h4⟩
  · decide

/-- Witness for C2: on the leakage dataset, position 5 (whose `eval_time = 5`
precedes `pred_times[10] = 10`) is kept by the purge. -/
theorem C2_purge_membership_witness :
    (5 : Nat) ∈ purge exampleRowsP (List.range 10) 10 19 :=
  (C2_purge_membership.1 exampleRowsP (List.range 10) 10 19 (by decide)
    (by decide) 5).mpr (Or.inl ⟨by decide, by decide⟩)

/-- A concrete dataset of four rows with `pred_time = eval_time = position`. -/
def exampleRows4 : List Row := (List.range 4).map (fun j => ⟨(j : Int), (j : Int)⟩)

/-- **C5**: For every call to `embargo` with a non-empty set of test positions
at or before `test_fold_end` (and train positions inside the dataset): letting
`min_train_index` be the count of rows whose `pred_time ≤` (eval time of the
last test position at or before `test_fold_end`) `+ embargo_td`, the returned
train positions equal the input train positions minus those whose position is
`≥ test_fold_end` and `< min_train_index`; and when
`min_train_index ≥ len(all_positions)`, the input train positions are
returned unchanged. -/
theorem C5_embargo_membership :
    ∀ (embargo_td : Int) (rows : List Row) (train test : List Nat) (tfe : Nat),
      test.filter (fun j => decide (j ≤ tfe)) ≠ [] →
      (∀ t ∈ train, t < rows.length) →
      ((minTrainIndex embargo_td rows test tfe < rows.length →
        ∀ j, j ∈ embargo embargo_td rows train test tfe ↔
          (j ∈ train ∧
            ¬(tfe ≤ j ∧ j < minTrainIndex embargo_td rows test tfe))) ∧
       (rows.length ≤ minTrainIndex embargo_td rows test tfe →
        embargo embargo_td rows train test tfe = train)) := by
  intro embargo_td rows train test tfe _hne htrain
  constructor
  · intro hlt j
    simp only [embargo, if_pos hlt, List.mem_filter, Bool.or_eq_true,
      Bool.and_eq_true, decide_eq_true_eq]
    constructor
    · rintro ⟨hj, hc⟩
      have hN := htrain j hj
      exact ⟨hj, by omega⟩
    · rintro ⟨hj, hc⟩
      have hN := htrain j hj
      exact ⟨hj, by omega⟩
  · intro hge
    simp only [embargo, if_neg (by omega : ¬ minTrainIndex embargo_td rows test tfe < rows.length)]

/-- Witness for C5: with zero embargo on four instantaneous rows, test fold
`[2]` ending at 2 gives `min_train_index = 3`, and training position 3
(which is `≥ min_train_index`) survives the embargo. -/
theorem C5_embargo_membership_witness :
    (3 : Nat) ∈ embargo 0 exampleRows4 [0, 1, 3] [2] 2 :=
  ((C5_embargo_membership 0 exampleRows4 [0, 1, 3] [2] 2 (by decide)
    (by decide)).1 (by decide) 3).mpr ⟨by decide, by decide⟩

/-- A concrete dataset of one hundred rows with
`pred_time = eval_time = position` (the spec's E2E scenario). -/
def exampleRows100 : List Row := (List.range 100).map (fun j => ⟨(j : Int), (j : Int)⟩)

/-- **C4**: For every split index `i` generated by `PurgedWalkForwardCV._split`,
the training slice starts at `fold_bounds[max(0, i - max_train_splits)]` and
ends at `fold_bounds[i]` (the yielded train array is the purge of exactly that
slice); hence with `n_splits=10, n_test_splits=1, min_train_splits=2,
max_train_splits=4` on 100 rows, the split at `i=9` covers at most 4
fold-widths (4·10 positions) of training data and the first split at `i=2`
covers exactly `min_train_splits` fold-widths (2·10 positions). -/
theorem C4_train_window_bounds :
    (∀ (cv : PurgedWalkForwardCV) (rows : List Row) (fb : List Nat) (i : Nat)
        (p : List Nat × List Nat),
        cv.splitStep rows fb i = Except.ok p →
        p.1 = purge rows
          (sliceIdx rows.length (fb.getD (i - cv.max_train_splits) 0)
            (some (fb.getD i 0))) (npMin p.2) (npMax p.2)) ∧
    (((⟨10, 1, 2, 4, 0, false⟩ : PurgedWalkForwardCV).split
        exampleRows100).1.getD 7 ([], [])).1.length ≤ 4 * 10 ∧
    (((⟨10, 1, 2, 4, 0, false⟩ : PurgedWalkForwardCV).split
        exampleRows100).1.getD 0 ([], [])).1.length = 2 * 10 := by
  refine ⟨?_, by decide, by decide⟩
  intro cv rows fb i p h
  exact (splitStep_ok_inv h).2.1

/-- Witness for C4 at a concrete input: the first split of a 3-fold splitter
on six rows is the purge of the slice `[fold_bounds[0], fold_bounds[1])`. -/
theorem C4_train_window_bounds_witness :
    (([0, 1], [2, 3]) : List Nat × List Nat).1 =
      purge exampleRows6
        (sliceIdx exampleRows6.length (([0, 2, 4] : List Nat).getD (1 - 2) 0)
          (some (([0, 2, 4] : List Nat).getD 1 0)))
        (npMin (([0, 1], [2, 3]) : List Nat × List Nat).2)
        (npMax (([0, 1], [2, 3]) : List Nat × List Nat).2) :=
  C4_train_window_bounds.1 ⟨3, 1, 1, 2, 0, false⟩ exampleRows6 [0, 2, 4] 1
    ([0, 1], [2, 3]) (by rfl)

/-- **C9 (amended)**: For 100 rows with
`prediction_time = evaluation_time = row index` and
`PurgedWalkForwardCV(n_splits=10, n_test_splits=1, min_train_splits=2,
max_train_splits=None)`, `get_n_splits()` returns `8 = 10 - 1 - 2 + 1`
(the spec's `== 7` miscomputes its own formula), `split()` yields exactly 8
pairs, and the first yielded split has train positions `[0, 20)` with no
purge removals and test positions `[20, 30)`. -/
theorem C9_e2e_scenario :
    mkPurgedWalkForwardCV (.int 10) (.int 1) (.int 2) none false =
      .ok ⟨10, 1, 2, 9, 0, false⟩ ∧
    (⟨10, 1, 2, 9, 0, false⟩ : PurgedWalkForwardCV).get_n_splits = 8 ∧
    ((⟨10, 1, 2, 9, 0, false⟩ : PurgedWalkForwardCV).split
      exampleRows100).1.length = 8 ∧
    ((⟨10, 1, 2, 9, 0, false⟩ : PurgedWalkForwardCV).split
      exampleRows100).2 = none ∧
    ((⟨10, 1, 2, 9, 0, false⟩ : PurgedWalkForwardCV).split
        exampleRows100).1.getD 0 ([], []) =
      (List.range' 0 20, List.range' 20 10) := by
  refine ⟨by rfl, by rfl, by decide, by rfl, by decide⟩

/-- Counterexample for **C9** as stated: the spec expects `get_n_splits() == 7`
and 7 yielded splits for this scenario, but the configured splitter returns
`10 - 1 - 2 + 1 = 8` and yields 8 pairs. -/
theorem C9_e2e_scenario_counterexample :
    (⟨10, 1, 2, 9, 0, false⟩ : PurgedWalkForwardCV).get_n_splits ≠ 7 ∧
    ((⟨10, 1, 2, 9, 0, false⟩ : PurgedWalkForwardCV).split
      exampleRows100).1.length ≠ 7 := by
  exact ⟨by decide, by decide⟩

/-- **C10**: For every valid `PurgedWalkForwardCV` configuration and every
dataset, each yielded train array equals `purge` applied to the contiguous
slice `[fold_bounds[max(0, i - max_train_splits)], fold_bounds[i])` with the
min and max of the test positions as fold bounds, and nothing else: the
embargo step is never applied, and the constructor (which neither accepts nor
forwards `embargo_td`) leaves every instance's `embargo_td` at the zero
default. -/
theorem C10_purge_only_no_embargo :
    ∀ (a b c : PyVal) (d : Option PyVal) (sbt : Bool)
      (cfg : PurgedWalkForwardCV) (rows : List Row) (p : List Nat × List Nat),
      mkPurgedWalkForwardCV a b c d sbt = .ok cfg →
      p ∈ (cfg.split rows).1 →
      cfg.embargo_td = 0 ∧
      ∃ i, cfg.min_train_splits ≤ i ∧ i ≤ cfg.n_splits - cfg.n_test_splits ∧
        p.1 = purge rows
          (sliceIdx rows.length
            ((cfg.compute_fold_bounds rows).getD (i - cfg.max_train_splits) 0)
            (some ((cfg.compute_fold_bounds rows).getD i 0)))
          (npMin p.2) (npMax p.2) ∧
        p.2 = sliceIdx rows.length ((cfg.compute_fold_bounds rows).getD i 0)
          (if i + cfg.n_test_splits < cfg.n_splits then
            some ((cfg.compute_fold_bounds rows).getD (i + cfg.n_test_splits) 0)
          else none) := by
  intro a b c d sbt cfg rows p hmk hp
  obtain ⟨_, _, _, _, hmts, _, _, _, hemb, _⟩ := mkPurgedWalkForwardCV_ok_spec hmk
  refine ⟨hemb, ?_⟩
  cases hm : isMonotone (rows.map Row.pred_time) with
  | false => rw [pwf_split_not_mono cfg rows hm] at hp; simp at hp
  | true =>
    rw [pwf_split_eq cfg rows hm] at hp
    obtain ⟨i, hi, hstep⟩ := List.mem_map.mp (runGen_mem hp)
    rw [List.mem_range'_1] at hi
    obtain ⟨hte, htr, _⟩ := splitStep_ok_inv hstep
    exact ⟨i, hi.1, by omega, htr, hte⟩

/-- Witness for C10 at a concrete input: the first pair of a 3-fold splitter
on six rows. -/
theorem C10_purge_only_no_embargo_witness :
    (⟨3, 1, 1, 2, 0, false⟩ : PurgedWalkForwardCV).embargo_td = 0 ∧
    ∃ i, (⟨3, 1, 1, 2, 0, false⟩ : PurgedWalkForwardCV).min_train_splits ≤ i ∧
      i ≤ (⟨3, 1, 1, 2, 0, false⟩ : PurgedWalkForwardCV).n_splits -
        (⟨3, 1, 1, 2, 0, false⟩ : PurgedWalkForwardCV).n_test_splits ∧
      ((((⟨3, 1, 1, 2, 0, false⟩ : PurgedWalkForwardCV).split
          exampleRows6).1.getD 0 ([], [])).1 = purge exampleRows6
        (sliceIdx exampleRows6.length
          (((⟨3, 1, 1, 2, 0, false⟩ : PurgedWalkForwardCV).compute_fold_bounds
              exampleRows6).getD
            (i - (⟨3, 1, 1, 2, 0, false⟩ : PurgedWalkForwardCV).max_train_splits) 0)
          (some (((⟨3, 1, 1, 2, 0, false⟩ :
              PurgedWalkForwardCV).compute_fold_bounds exampleRows6).getD i 0)))
        (npMin (((⟨3, 1, 1, 2, 0, false⟩ : PurgedWalkForwardCV).split
          exampleRows6).1.getD 0 ([], [])).2)
        (npMax (((⟨3, 1, 1, 2, 0, false⟩ : PurgedWalkForwardCV).split
          exampleRows6).1.getD 0 ([], [])).2)) ∧
      (((⟨3, 1, 1, 2, 0, false⟩ : PurgedWalkForwardCV).split
          exampleRows6).1.getD 0 ([], [])).2 =
        sliceIdx exampleRows6.length
          (((⟨3, 1, 1, 2, 0, false⟩ :
              PurgedWalkForwardCV).compute_fold_bounds exampleRows6).getD i 0)
          (if i + (⟨3, 1, 1, 2, 0, false⟩ : PurgedWalkForwardCV).n_test_splits <
              (⟨3, 1, 1, 2, 0, false⟩ : PurgedWalkForwardCV).n_splits then
            some (((⟨3, 1, 1, 2, 0, false⟩ :
                PurgedWalkForwardCV).compute_fold_bounds exampleRows6).getD
              (i + (⟨3, 1, 1, 2, 0, false⟩ :
                PurgedWalkForwardCV).n_test_splits) 0)
          else none) :=
  C10_purge_only_no_embargo (.int 3) (.int 1) (.int 1) (some (.int 2)) false
    ⟨3, 1, 1, 2, 0, false⟩ exampleRows6
    (((⟨3, 1, 1, 2, 0, false⟩ : PurgedWalkForwardCV).split
      exampleRows6).1.getD 0 ([], [])) (by rfl) (by decide)

theorem splitStep_isOk_index {cfg : PurgedWalkForwardCV} {rows : List Row} {i : Nat}
    (hsbt : cfg.split_by_time = false)
    (hN : cfg.n_splits ≤ rows.length)
    (hnts : 1 ≤ cfg.n_test_splits)
    (hkn : cfg.n_test_splits < cfg.n_splits)
    (hi1 : i ≤ cfg.n_splits - cfg.n_test_splits) :
    ∃ p, cfg.splitStep rows (cfg.compute_fold_bounds rows) i = Except.ok p := by
  have hik : i < cfg.n_splits := by omega
  have hfb : cfg.compute_fold_bounds rows =
      foldBoundsByIndex cfg.n_splits rows.length := by
    simp [PurgedWalkForwardCV.compute_fold_bounds, hsbt]
  have hne : ((sliceIdx rows.length
      ((cfg.compute_fold_bounds rows).getD i 0)
      (if i + cfg.n_test_splits < cfg.n_splits then
        some ((cfg.compute_fold_bounds rows).getD (i + cfg.n_test_splits) 0)
      else none)).isEmpty = true) = False := by
    have hgd : (cfg.compute_fold_bounds rows).getD i 0 =
        i * (rows.length / cfg.n_splits) + min i (rows.length % cfg.n_splits) := by
      rw [hfb, foldBoundsByIndex_getD hik]
    have hltN := foldBoundsByIndex_lt hik hN
    by_cases hc : i + cfg.n_test_splits < cfg.n_splits
    · have hgd2 : (cfg.compute_fold_bounds rows).getD (i + cfg.n_test_splits) 0 =
          (i + cfg.n_test_splits) * (rows.length / cfg.n_splits) +
            min (i + cfg.n_test_splits) (rows.length % cfg.n_splits) := by
        rw [hfb, foldBoundsByIndex_getD hc]
      have hmono := foldBoundsByIndex_strictMono
        (show i < i + cfg.n_test_splits by omega)
        (show 0 < cfg.n_splits by omega) hN (N := rows.length)
      have hltN2 := foldBoundsByIndex_lt hc hN
      simp only [if_pos hc, hgd, hgd2, sliceIdx, Option.getD_some,
        List.isEmpty_iff, List.range'_eq_nil, eq_iff_iff, iff_false]
      omega
    · simp only [if_neg hc, hgd, sliceIdx, Option.getD_none,
        List.isEmpty_iff, List.range'_eq_nil, eq_iff_iff, iff_false]
      omega
  cases hstep : cfg.splitStep rows (cfg.compute_fold_bounds rows) i with
  | ok p => exact ⟨p, rfl⟩
  | error e =>
    exfalso
    simp only [PurgedWalkForwardCV.splitStep, hne, if_false] at hstep
    exact absurd hstep (by simp)

/-- **C3 (amended)**: For every validly constructed `PurgedWalkForwardCV`,
`get_n_splits()` returns `n_splits - n_test_splits - min_train_splits + 1`;
and — for index-based folds (`split_by_time = false`) — for every dataset
with non-decreasing prediction times and at least `n_splits` rows, `split()`
yields exactly that many `(train, test)` pairs (one per `i` from
`min_train_splits` to `n_splits - n_test_splits` inclusive) and raises no
error.  (With `split_by_time = true` an empty test fold can abort the
generator mid-iteration; see the counterexample.) -/
theorem C3_split_count :
    ∀ (a b c : PyVal) (d : Option PyVal) (cfg : PurgedWalkForwardCV)
      (rows : List Row),
      mkPurgedWalkForwardCV a b c d false = .ok cfg →
      isMonotone (rows.map Row.pred_time) = true →
      cfg.n_splits ≤ rows.length →
      cfg.get_n_splits =
        cfg.n_splits - cfg.n_test_splits - cfg.min_train_splits + 1 ∧
      (cfg.split rows).1.length = cfg.get_n_splits ∧
      (cfg.split rows).2 = none := by
  intro a b c d cfg rows hmk hmono hN
  obtain ⟨_, hnts, hkn, hmts1, hmts2, _, _, _, _, hsbt⟩ :=
    mkPurgedWalkForwardCV_ok_spec hmk
  have hall : ∀ x ∈ (List.range' cfg.min_train_splits
      (cfg.n_splits - cfg.n_test_splits + 1 - cfg.min_train_splits)).map
        (cfg.splitStep rows (cfg.compute_fold_bounds rows)),
      ∃ p, x = Except.ok p := by
    intro x hx
    obtain ⟨i, hi, rfl⟩ := List.mem_map.mp hx
    rw [List.mem_range'_1] at hi
    obtain ⟨p, hp⟩ := splitStep_isOk_index hsbt hN hnts (by omega)
      (show i ≤ cfg.n_splits - cfg.n_test_splits by omega)
    exact ⟨p, hp⟩
  have hrun := runGen_all_ok hall
  refine ⟨rfl, ?_, ?_⟩
  · rw [pwf_split_eq cfg rows hmono]
    simp only [hrun.1, List.length_map, List.length_range',
      PurgedWalkForwardCV.get_n_splits]
    omega
  · rw [pwf_split_eq cfg rows hmono]
    exact hrun.2

/-- Witness for C3 at a concrete input: a 3-fold splitter over six
monotone rows yields `3 - 1 - 1 + 1 = 2` pairs and no error. -/
theorem C3_split_count_witness :
    (⟨3, 1, 1, 2, 0, false⟩ : PurgedWalkForwardCV).get_n_splits =
      3 - 1 - 1 + 1 ∧
    ((⟨3, 1, 1, 2, 0, false⟩ : PurgedWalkForwardCV).split
      exampleRows6).1.length =
      (⟨3, 1, 1, 2, 0, false⟩ : PurgedWalkForwardCV).get_n_splits ∧
    ((⟨3, 1, 1, 2, 0, false⟩ : PurgedWalkForwardCV).split exampleRows6).2 =
      none :=
  C3_split_count (.int 3) (.int 1) (.int 1) (some (.int 2))
    ⟨3, 1, 1, 2, 0, false⟩ exampleRows6 (by rfl) (by decide) (by decide)

/-- Counterexample for **C3** as stated: with `split_by_time = true`, a
validly constructed splitter (`n_splits=5, n_test_splits=1,
min_train_splits=2`) on five rows with non-decreasing (all-equal) prediction
times yields 0 pairs — the first test fold is empty, so the generator raises
mid-iteration — although `get_n_splits()` returns 3. -/
theorem C3_split_count_counterexample :
    mkPurgedWalkForwardCV (.int 5) (.int 1) (.int 2) none true =
      .ok ⟨5, 1, 2, 4, 0, true⟩ ∧
    isMonotone ((List.replicate 5 (⟨0, 0⟩ : Row)).map Row.pred_time) = true ∧
    (⟨5, 1, 2, 4, 0, true⟩ : PurgedWalkForwardCV).n_splits ≤
      (List.replicate 5 (⟨0, 0⟩ : Row)).length ∧
    (⟨5, 1, 2, 4, 0, true⟩ : PurgedWalkForwardCV).get_n_splits = 3 ∧
    ((⟨5, 1, 2, 4, 0, true⟩ : PurgedWalkForwardCV).split
      (List.replicate 5 (⟨0, 0⟩ : Row))).1.length = 0 ∧
    ((⟨5, 1, 2, 4, 0, true⟩ : PurgedWalkForwardCV).split
      (List.replicate 5 (⟨0, 0⟩ : Row))).2 =
      some "zero-size array to reduction operation minimum which has no identity" := by
  have hfbt : (⟨5, 1, 2, 4, 0, true⟩ : PurgedWalkForwardCV).compute_fold_bounds
      (List.replicate 5 (⟨0, 0⟩ : Row)) = [0, 0, 0, 0, 0] := by
    show foldBoundsByTime 5 (List.replicate 5 (⟨0, 0⟩ : Row)) = [0, 0, 0, 0, 0]
    simp only [foldBoundsByTime]
    have hm : (List.replicate 5 (⟨0, 0⟩ : Row)).map Row.pred_time =
        [0, 0, 0, 0, 0] := rfl
    rw [hm]
    norm_num [List.foldl, List.headD, List.filter]
    rfl
  have hsplit : (⟨5, 1, 2, 4, 0, true⟩ : PurgedWalkForwardCV).split
      (List.replicate 5 (⟨0, 0⟩ : Row)) =
      ([], some "zero-size array to reduction operation minimum which has no identity") := by
    rw [pwf_split_eq _ _ (by rfl), hfbt]
    rfl
  refine ⟨by rfl, by rfl, by decide, by rfl, ?_, ?_⟩
  · rw [hsplit]
    rfl
  · rw [hsplit]

/-- **C6**: Every malformed constructor argument — non-integer or out-of-range
`n_splits`, `n_test_splits`, `min_train_splits`, `max_train_splits`, or an
unsupported `training_frequency` string — raises a `ValueError` at
construction time, before any split is requested: construction succeeds
exactly when every argument is integral and in range (resp. when the
frequency is one of `daily`, `weekly`, `monthly`); in particular
`PurgedWalkForwardCV(n_splits=5, n_test_splits=5)` raises, and a
`PredictionWindowManager` with `training_frequency` outside
`{daily, weekly, monthly}` raises. -/
theorem C6_construction_fail_fast :
    (∀ (a b c : PyVal) (d : Option PyVal) (sbt : Bool),
      (∃ cfg, mkPurgedWalkForwardCV a b c d sbt = .ok cfg) ↔
      (∃ ns nts mts : Int, a = .int ns ∧ b = .int nts ∧ c = .int mts ∧
        1 < ns ∧ 0 < nts ∧ nts < ns - 1 ∧ 0 < mts ∧ mts < ns - nts ∧
        (d = none ∨ ∃ xts : Int, d = some (.int xts) ∧ 0 < xts ∧
          xts ≤ ns - nts ∧ mts ≤ xts))) ∧
    mkPurgedWalkForwardCV (.int 5) (.int 5) (.int 2) none false =
      .error "n_test_splits must be greater than 0 and less than n_splits - 1" ∧
    (∀ (g i nb rw : Int) (f : String),
      (∃ c, mkPredictionWindowManager g i f nb rw = .ok c) ↔
      (f = "daily" ∨ f = "weekly" ∨ f = "monthly")) := by
  refine ⟨?_, by rfl, ?_⟩
  · intro a b c d sbt
    constructor
    · rintro ⟨cfg, h⟩
      cases a with
      | nonInt => simp [mkPurgedWalkForwardCV] at h
      | int ns =>
        cases b with
        | nonInt =>
          simp only [mkPurgedWalkForwardCV] at h
          split at h <;> simp at h
        | int nts =>
          cases c with
          | nonInt =>
            simp only [mkPurgedWalkForwardCV] at h
            split at h <;> [skip; split at h] <;> simp at h
          | int mts =>
            rcases d with _ | v
            · simp only [mkPurgedWalkForwardCV, Option.getD_none] at h
              split_ifs at h with h1 h2 h3 h4 h5
              exact ⟨ns, nts, mts, rfl, rfl, rfl, by omega, by omega, by omega,
                by omega, by omega, Or.inl rfl⟩
            · cases v with
              | nonInt =>
                simp only [mkPurgedWalkForwardCV, Option.getD_some] at h
                split_ifs at h <;> simp at h
              | int xts =>
                simp only [mkPurgedWalkForwardCV, Option.getD_some] at h
                split_ifs at h with h1 h2 h3 h4 h5
                exact ⟨ns, nts, mts, rfl, rfl, rfl, by omega, by omega, by omega,
                  by omega, by omega,
                  Or.inr ⟨xts, rfl, by omega, by omega, by omega⟩⟩
    · rintro ⟨ns, nts, mts, rfl, rfl, rfl, h1, h2, h3, h4, h5, hd⟩
      rcases hd with rfl | ⟨xts, rfl, hx1, hx2, hx3⟩
      · simp only [mkPurgedWalkForwardCV, Option.getD_none]
        rw [if_neg (by omega), if_neg (by omega), if_neg (by omega),
          if_neg (by omega), if_neg (by omega)]
        exact ⟨_, rfl⟩
      · simp only [mkPurgedWalkForwardCV, Option.getD_some]
        rw [if_neg (by omega), if_neg (by omega), if_neg (by omega),
          if_neg (by omega), if_neg (by omega)]
        exact ⟨_, rfl⟩
  · intro g i nb rw f
    constructor
    · rintro ⟨c, h⟩
      obtain ⟨dv, hf, _⟩ := mkPWM_ok_inv h
      unfold frequencyDivisor at hf
      split_ifs at hf <;> (try simp at hf) <;> tauto
    · rintro (rfl | rfl | rfl) <;> exact ⟨_, rfl⟩

/-- Witness for C6: a fully in-range `PurgedWalkForwardCV` construction
succeeds, and a `monthly` `PredictionWindowManager` construction succeeds. -/
theorem C6_construction_fail_fast_witness :
    (∃ cfg, mkPurgedWalkForwardCV (.int 10) (.int 2) (.int 3)
      (some (.int 5)) false = .ok cfg) ∧
    (∃ c, mkPredictionWindowManager 22 220 "monthly" 22 7 = .ok c) :=
  ⟨(C6_construction_fail_fast.1 (.int 10) (.int 2) (.int 3)
      (some (.int 5)) false).mpr
    ⟨10, 2, 3, rfl, rfl, rfl, by omega, by omega, by omega, by omega, by omega,
      Or.inr ⟨5, rfl, by omega, by omega, by omega⟩⟩,
   (C6_construction_fail_fast.2.2 22 220 22 7 "monthly").mpr
    (Or.inr (Or.inr rfl))⟩

/-- **C7**: For both splitters, calling `split()` on data whose time column is
not non-decreasing raises a `ValueError` and yields no `(train, test)` pair;
likewise `PredictionWindowManager.split` raises before yielding any pair when
the (scaled) `initial_train_size` exceeds the number of distinct values of
the time column. -/
theorem C7_split_precondition_errors :
    (∀ (cv : PurgedWalkForwardCV) (rows : List Row),
      isMonotone (rows.map Row.pred_time) = false →
      (cv.split rows).1 = [] ∧ (cv.split rows).2 =
        some "pred_time_column_name must be monotonic increasing") ∧
    (∀ (c : PredictionWindowManager) (times : List Int),
      isMonotone times = false →
      c.split times = .error "Time column must be monotonic increasing") ∧
    (∀ (c : PredictionWindowManager) (times : List Int),
      isMonotone times = true →
      ((uniq times).length : Int) < c.initial_train_size →
      c.split times = .error
        "Initial training size must be less than or equal to the number of prediction times") := by
  refine ⟨?_, ?_, ?_⟩
  · intro cv rows h
    rw [pwf_split_not_mono cv rows h]
    exact ⟨rfl, rfl⟩
  · intro c times h
    simp [PredictionWindowManager.split, h]
  · intro c times hm hinit
    simp only [PredictionWindowManager.split, hm, if_true]
    rw [if_pos (by exact_mod_cast hinit)]

/-- Witness for C7 at the concrete non-sorted time column `[5, 3, 4]` and an
undersized dataset. -/
theorem C7_split_precondition_errors_witness :
    ((⟨3, 1, 1, 2, 0, false⟩ : PurgedWalkForwardCV).split
        [⟨5, 5⟩, ⟨3, 3⟩, ⟨4, 4⟩]).1 = [] ∧
    (⟨0, 10, 1, 0⟩ : PredictionWindowManager).split [0, 1] =
      .error
        "Initial training size must be less than or equal to the number of prediction times" ∧
    (⟨0, 2, 1, 0⟩ : PredictionWindowManager).split [5, 3, 4] =
      .error "Time column must be monotonic increasing" :=
  ⟨(C7_split_precondition_errors.1 ⟨3, 1, 1, 2, 0, false⟩
      [⟨5, 5⟩, ⟨3, 3⟩, ⟨4, 4⟩] (by rfl)).1,
   C7_split_precondition_errors.2.2 ⟨0, 10, 1, 0⟩ [0, 1] (by rfl) (by decide),
   C7_split_precondition_errors.2.1 ⟨0, 2, 1, 0⟩ [5, 3, 4] (by rfl)⟩

theorem ceilDiv_eq_ceil {x d : Int} (hd : 0 < d) :
    ceilDiv x d = ⌈(x : ℚ) / (d : ℚ)⌉ := by
  have hdn : ((d.toNat : ℕ) : ℤ) = d := Int.toNat_of_nonneg hd.le
  rw [ceilDiv, Int.fdiv_eq_ediv _ hd.le]
  rw [show ((x : ℚ) / (d : ℚ)) = -((((-x : ℤ) : ℚ)) / (d : ℚ)) by
    push_cast; ring]
  rw [Int.ceil_neg]
  congr 1
  rw [show ((d : ℚ)) = ((d.toNat : ℕ) : ℚ) by exact_mod_cast hdn.symm]
  rw [Rat.floor_intCast_div_natCast (-x) d.toNat, hdn]

/-- **C8**: At `PredictionWindowManager` construction, each of `gap_size`,
`initial_train_size`, and `num_bars_between_training` is replaced by its
ceiling after division by the per-frequency divisor (`daily → 1`,
`weekly → 5`, `monthly → 22`), and `rolling_window_size` is not rescaled; in
particular `gap_size=22, initial_train_size=220, num_bars_between_training=22`
with `training_frequency = "monthly"` become `1`, `10`, and `1`. -/
theorem C8_frequency_scaling :
    (∀ (g i nb rw : Int) (f : String) (dv : Int) (c : PredictionWindowManager),
      frequencyDivisor f = some dv →
      mkPredictionWindowManager g i f nb rw = .ok c →
      c.gap_size = ⌈(g : ℚ) / (dv : ℚ)⌉ ∧
      c.initial_train_size = ⌈(i : ℚ) / (dv : ℚ)⌉ ∧
      c.num_bars_between_training = ⌈(nb : ℚ) / (dv : ℚ)⌉ ∧
      c.rolling_window_size = rw) ∧
    frequencyDivisor "daily" = some 1 ∧
    frequencyDivisor "weekly" = some 5 ∧
    frequencyDivisor "monthly" = some 22 ∧
    (∀ rw : Int,
      mkPredictionWindowManager 22 220 "monthly" 22 rw = .ok ⟨1, 10, 1, rw⟩) := by
  refine ⟨?_, rfl, rfl, rfl, fun rw => rfl⟩
  intro g i nb rw f dv c hf hmk
  obtain ⟨dv', hf', hpos, hg, hi, hnb, hrw⟩ := mkPWM_ok_inv hmk
  rw [hf] at hf'
  injection hf' with hdd
  subst hdd
  exact ⟨by rw [hg, ceilDiv_eq_ceil hpos], by rw [hi, ceilDiv_eq_ceil hpos],
    by rw [hnb, ceilDiv_eq_ceil hpos], hrw⟩

/-- Witness for C8: the monthly scaling of `(22, 220, 22)` with rolling
window 7 is `(⌈22/22⌉, ⌈220/22⌉, ⌈22/22⌉) = (1, 10, 1)`, rolling unchanged. -/
theorem C8_frequency_scaling_witness :
    (1 : Int) = ⌈(22 : ℚ) / (22 : ℚ)⌉ ∧
    (10 : Int) = ⌈(220 : ℚ) / (22 : ℚ)⌉ ∧
    (1 : Int) = ⌈(22 : ℚ) / (22 : ℚ)⌉ ∧
    (7 : Int) = 7 := by
  have h := C8_frequency_scaling.1 22 220 22 7 "monthly" 22
    ⟨1, 10, 1, 7⟩ (by rfl) (by rfl)
  exact h
